import Mathlib

/-!
# gocd-cli `configrepo fetch`: a shallow embedding of `cmd/configrepo/fetch.go`

The command is a sequential script over external collaborators (the plugin
registry, the HTTP client `dub`, the version resolver `github`, the plugin
lookup `plugins`, the helpers of `utils`, and `os`).  The embedding keeps the
control flow of the four methods of `FetchRunner` and records, in order, the
calls through which the file reads the registry, talks to the network, reads or
changes the file system, writes output or ends the process.  What the
collaborators answer is a parameter (`World`), so every theorem holds for all
of their behaviours.  The chain `dub.New().Get(url).Do(...)` is recorded as one
request, at the point where `Do` issues it (after its argument `url` has been
computed).
-/

namespace GocdCli

/-! ## Data -/

/-- A Go `error` value, classified by its dynamic type as far as `fetch.go`
can tell types apart (the only type assertion is the one on
`*plugins.PluginNotFoundError`). -/
inductive GoError where
  /-- An error built by `fmt.Errorf` with the given message. -/
  | errorf (msg : String)
  /-- A value of type `*plugins.PluginNotFoundError`. -/
  | pluginNotFound (msg : String)
  /-- An error of any other dynamic type. -/
  | other (msg : String)
  deriving DecidableEq, Repr

/-- The type assertion `err.(*plugins.PluginNotFoundError)`: its `isType` result. -/
def GoError.isPluginNotFound : GoError → Bool
  | .pluginNotFound _ => true
  | _ => false

/-- The message of an error (`err.Error()`). -/
def GoError.message : GoError → String
  | .errorf m => m
  | .pluginNotFound m => m
  | .other m => m

/-- The asset returned by `github.ResolveVersionJar`; `fetch.go` reads `a.Url` and `a.Name`. -/
structure Asset where
  Name : String
  Url : String
  deriving DecidableEq, Repr

/-- Modelled from the spec: `github.Release`, whose declaration is outside this file:
"a remote record with a version/tag, a flag indicating prerelease status, and one or
more named downloadable assets". `fetch.go` only takes the length of the list. -/
structure Release where
  TagName : String
  Prerelease : Bool
  Assets : List Asset
  deriving DecidableEq, Repr

/-- A value of the `plugins.ConfigRepo` map; `fetch.go` reads its `Url` field. -/
structure ConfigRepoPlugin where
  Url : String
  deriving DecidableEq, Repr

/-- The struct `FetchRunner`. -/
structure FetchRunner where
  StableOnly : Bool
  FilterBy : String
  deriving DecidableEq, Repr

/-- The `*dub.Response` handed to the callback of `Do`; the callback calls `res.ReadAll()`. -/
structure Response where
  ReadAll : Except GoError String

/-- What `dub.New().Get(url).Do(callback)` does with a request: it fails with an error
of its own, or it obtains a response, runs the callback on it and returns the
callback's error. -/
inductive DoOutcome where
  | failed (e : GoError)
  | responded (res : Response)

/-- Everything `fetch.go` reads from outside itself: the package variables `PluginId`
and `PluginDir`, the registry `plugins.ConfigRepo` (a Go map, read as a finite
function), and the answers of the collaborators. -/
structure World where
  PluginId : String
  PluginDir : String
  /-- The map `plugins.ConfigRepo`: `ConfigRepo id = some v` is `v, ok := ConfigRepo[id]` with `ok`. -/
  ConfigRepo : String → Option ConfigRepoPlugin
  /-- The `%s` rendering of `plugins.ConfigRepo.ShortList()`. -/
  ShortList : String
  /-- The outcome of the request `dub.New().Get(url).Do(...)`. -/
  Do : String → DoOutcome
  /-- The call `json.Unmarshal(payload, &releases)`: the contents of `releases` afterwards,
  and the error. -/
  Unmarshal : String → List Release × Option GoError
  /-- The error that `utils.InspectError(err, format, args...)` returns. -/
  InspectError : GoError → String → List String → GoError
  /-- The result of `github.ResolveVersionJar(releases, filterBy, stableOnly)`. -/
  ResolveVersionJar : List Release → String → Bool → Except GoError Asset
  /-- The result of `plugins.PluginById(id, dir)`. -/
  PluginById : String → String → Except GoError String
  /-- The result of `utils.IsDir(path)`. -/
  IsDir : String → Bool
  /-- The result of `utils.IsFile(path)`. -/
  IsFile : String → Bool
  /-- The error result of `os.RemoveAll(path)`, which `fetch.go` discards. -/
  RemoveAll : String → Option GoError
  /-- The `(path, error)` pair that `utils.Wget(url, name, dir)` returns. -/
  Wget : String → String → String → String × Option GoError

/-! ## Effects -/

/-- A call made by `fetch.go` to a collaborator, with its arguments. -/
inductive Event where
  /-- The map read `plugins.ConfigRepo[pluginId]`. -/
  | registryLookup (pluginId : String)
  /-- The HTTP request `dub.New().Get(url).Do(...)`. -/
  | httpGet (url : String)
  /-- The call `utils.InspectError(err, format, args...)`. -/
  | inspectError (err : GoError) (format : String) (args : List String)
  /-- The call `github.ResolveVersionJar(releases, filterBy, stableOnly)`. -/
  | resolveVersionJar (releases : List Release) (filterBy : String) (stableOnly : Bool)
  /-- The call `plugins.PluginById(id, dir)`. -/
  | pluginById (id : String) (dir : String)
  /-- The call `utils.IsDir(path)`. -/
  | isDir (path : String)
  /-- The call `utils.IsFile(path)`. -/
  | isFile (path : String)
  /-- The call `utils.Errfln`, with the formatted message. -/
  | errfln (msg : String)
  /-- The call `utils.Echofln`, with the formatted message. -/
  | echofln (msg : String)
  /-- The call `os.RemoveAll(path)`. -/
  | removeAll (path : String)
  /-- The call `utils.Wget(url, name, dir)`. -/
  | wget (url : String) (name : String) (dir : String)
  /-- The call `utils.DieLoudly(exitCode, msg)`. -/
  | dieLoudly (exitCode : Nat) (msg : String)
  /-- The call `utils.AbortLoudly(err)`. -/
  | abortLoudly (err : GoError)
  deriving DecidableEq, Repr

/-- How a piece of code ends: it returns a value, or the process has exited. -/
inductive Outcome (α : Type) where
  | returned (a : α)
  | exited (code : Nat)
  deriving DecidableEq, Repr

/-- A run of a piece of code: how it ends, and the calls it made, oldest first. -/
structure Proc (α : Type) where
  outcome : Outcome α
  trace : List Event
  deriving DecidableEq, Repr

/-- Return without calling anything. -/
def Proc.pure {α : Type} (a : α) : Proc α := ⟨.returned a, []⟩

/-- Sequencing: the second part runs only if the first returned. -/
def Proc.bind {α β : Type} (m : Proc α) (f : α → Proc β) : Proc β :=
  match m.outcome with
  | .returned a => ⟨(f a).outcome, m.trace ++ (f a).trace⟩
  | .exited c => ⟨.exited c, m.trace⟩

instance : Monad Proc where
  pure := Proc.pure
  bind := Proc.bind

/-- Record one call. -/
def emit (e : Event) : Proc Unit := ⟨.returned (), [e]⟩

/-- The process ends here with the given exit code (`os.Exit`). -/
def exitProcess {α : Type} (code : Nat) : Proc α := ⟨.exited code, []⟩

/-- Modelled from the spec: `utils.DieLoudly(exitCode, msg)`, whose body is outside this
file: "aborts immediately (fatal, process-ending)", "exit code 1 (or non-zero) with an
error message". The call is recorded and the process exits with `exitCode`. -/
def DieLoudly (exitCode : Nat) (msg : String) : Proc Unit := do
  emit (.dieLoudly exitCode msg)
  exitProcess exitCode

/-- Modelled from the spec: `utils.AbortLoudly(err)`, whose body is outside this file:
"Any failure at any stage aborts the process with a non-zero exit and a descriptive
message", "exit code 1 (or non-zero)". The call is recorded and the process exits with
code 1. -/
def AbortLoudly (err : GoError) : Proc Unit := do
  emit (.abortLoudly err)
  exitProcess 1

/-! ## The methods of `FetchRunner` -/

/-- The method `FetchRunner.GetReleaseUrl` (fetch.go:83-89). The map read is recorded. -/
def GetReleaseUrl (w : World) (_fr : FetchRunner) (pluginId : String) :
    Proc (String × Option GoError) := do
  emit (.registryLookup pluginId)
  match w.ConfigRepo pluginId with
  | some v => return (v.Url, none)
  | none =>
    return ("", some (.errorf ("Don't know how to fetch plugin `" ++ pluginId ++
      "`; known plugins: " ++ w.ShortList)))

/-- The method `FetchRunner.releasesURL` (fetch.go:91-98). The named result `releaseUrl` starts as
the empty string and is returned by the bare `return`. -/
def releasesURL (w : World) (fr : FetchRunner) (pluginId : String) : Proc String := do
  let (u, err) ← GetReleaseUrl w fr pluginId
  match err with
  | none => return u
  | some e =>
    AbortLoudly e
    return ""

/-- The method `FetchRunner.FetchPlugin` (fetch.go:40-81). The argument of `releasesURL`
and of `plugins.PluginById` is the package variable `PluginId`, as in the source; the
parameter `id` occurs only in the message of the no-releases error. -/
def FetchPlugin (w : World) (fr : FetchRunner) (id : String) :
    Proc (String × Option GoError) := do
  -- releases := make([]github.Release, 0)
  let url ← releasesURL w fr w.PluginId
  emit (.httpGet url)
  let (releases, err) ←
    (match w.Do url with
      | .failed e => (return ([], some e) : Proc (List Release × Option GoError))
      | .responded res =>
        match res.ReadAll with
        | .error e => do
          let u ← releasesURL w fr w.PluginId
          emit (.inspectError e "reading github releases response from %q" [u])
          return ([], some (w.InspectError e "reading github releases response from %q" [u]))
        | .ok payload => return w.Unmarshal payload)
  match err with
  | some e =>
    let u ← releasesURL w fr w.PluginId
    emit (.inspectError e "making request to github releases at %q" [u])
    return ("", some e)
  | none =>
    if 0 == releases.length then
      return ("", some (.errorf ("There are no available releases for " ++ id)))
    else
      emit (.resolveVersionJar releases fr.FilterBy fr.StableOnly)
      match w.ResolveVersionJar releases fr.FilterBy fr.StableOnly with
      | .error e => return ("", some e)
      | .ok a =>
        emit (.pluginById w.PluginId w.PluginDir)
        match w.PluginById w.PluginId w.PluginDir with
        | .ok existing =>
          emit (.isDir existing)
          if w.IsDir existing then
            emit (.errfln ("[WARNING] `" ++ existing ++
              "` is a directory; will not remove this, but please inspect."))
          emit (.isFile existing)
          if w.IsFile existing then
            emit (.echofln ("Removing existing " ++ w.PluginId ++ " plugin " ++ existing))
            emit (.removeAll existing)
            let _ := w.RemoveAll existing
          emit (.wget a.Url a.Name w.PluginDir)
          return w.Wget a.Url a.Name w.PluginDir
        | .error e =>
          emit (.inspectError e "searching for plugin with id %q in dir %q"
            [w.PluginId, w.PluginDir])
          if !e.isPluginNotFound then
            return ("", some e)
          else
            emit (.wget a.Url a.Name w.PluginDir)
            return w.Wget a.Url a.Name w.PluginDir

/-- The method `FetchRunner.Run` (fetch.go:30-38). -/
def Run (w : World) (fr : FetchRunner) (_args : List String) : Proc Unit := do
  if "" == w.PluginId then
    DieLoudly 1 "You must provide a --plugin-id"
  let (_, err) ← FetchPlugin w fr w.PluginId
  match err with
  | some e => AbortLoudly e
  | none => return ()

/-! ## Classifying calls -/

/-- The call is an HTTP request. -/
def Event.isHttpGet : Event → Bool
  | .httpGet _ => true
  | _ => false

/-- The call is a search for an installed plugin. -/
def Event.isPluginById : Event → Bool
  | .pluginById _ _ => true
  | _ => false

/-- The call removes a path. -/
def Event.isRemoveAll : Event → Bool
  | .removeAll _ => true
  | _ => false

/-- The call is a download. -/
def Event.isWget : Event → Bool
  | .wget _ _ _ => true
  | _ => false

/-- The call invokes the version resolver. -/
def Event.isResolveVersionJar : Event → Bool
  | .resolveVersionJar _ _ _ => true
  | _ => false

/-- The call is `utils.DieLoudly`. -/
def Event.isDieLoudly : Event → Bool
  | .dieLoudly _ _ => true
  | _ => false

/-- The call reads the file system (`IsDir`, `IsFile`, `PluginById`) or changes it
(`RemoveAll`, `Wget`). -/
def Event.isFilesystem : Event → Bool
  | .pluginById _ _ => true
  | .isDir _ => true
  | .isFile _ => true
  | .removeAll _ => true
  | .wget _ _ _ => true
  | _ => false

/-! ## Sample worlds -/

/-- A registry with two known plugins. -/
def sampleRegistry : String → Option ConfigRepoPlugin := fun id =>
  if id = "yaml" then some ⟨"https://feed.example/yaml/releases"⟩
  else if id = "json" then some ⟨"https://feed.example/json/releases"⟩
  else none

/-- The release list of the `yaml` feed: one stable release carrying one jar. -/
def sampleReleases : List Release :=
  [⟨"0.9.0", false, [⟨"yaml-0.9.0.jar", "https://dl.example/yaml-0.9.0.jar"⟩]⟩]

/-- The release list of the `json` feed. -/
def jsonReleases : List Release :=
  [⟨"0.3.1", false, [⟨"json-0.3.1.jar", "https://dl.example/json-0.3.1.jar"⟩]⟩]

/-- A world in which `yaml` is requested, each feed answers with its release list, the
resolver picks the first jar of the first release, and each plugin is installed as a
regular file. -/
def sampleWorld : World where
  PluginId := "yaml"
  PluginDir := "plugins"
  ConfigRepo := sampleRegistry
  ShortList := "json, yaml"
  Do := fun url =>
    if url = "https://feed.example/yaml/releases" then .responded ⟨.ok "yaml-feed"⟩
    else if url = "https://feed.example/json/releases" then .responded ⟨.ok "json-feed"⟩
    else .failed (.other "no such host")
  Unmarshal := fun payload =>
    if payload = "yaml-feed" then (sampleReleases, none)
    else if payload = "json-feed" then (jsonReleases, none)
    else ([], some (.other "invalid character"))
  InspectError := fun e _ _ => e
  ResolveVersionJar := fun releases _ _ =>
    match releases with
    | ⟨_, _, a :: _⟩ :: _ => .ok a
    | _ => .error (.errorf "no matching release")
  PluginById := fun id dir =>
    if id = "yaml" then .ok (dir ++ "/yaml-0.8.0.jar")
    else if id = "json" then .ok (dir ++ "/json-0.3.0.jar")
    else .error (.pluginNotFound id)
  IsDir := fun _ => false
  IsFile := fun path => path = "plugins/yaml-0.8.0.jar" || path = "plugins/json-0.3.0.jar"
  RemoveAll := fun _ => none
  Wget := fun _ name dir => (dir ++ "/" ++ name, none)

/-- The flags left at their defaults. -/
def sampleRunner : FetchRunner := ⟨false, ""⟩

/-- The sample world with a plugin id that the registry does not know. -/
def unknownIdWorld : World := { sampleWorld with PluginId := "toml" }

/-- The sample world with the installed copy being a directory. -/
def directoryWorld : World :=
  { sampleWorld with
    PluginById := fun _ dir => .ok (dir ++ "/yaml")
    IsDir := fun path => path = "plugins/yaml"
    IsFile := fun _ => false }

/-- The sample world with no installed copy. -/
def notInstalledWorld : World :=
  { sampleWorld with PluginById := fun id _ => .error (.pluginNotFound id) }

/-- The sample world with a plugin directory that cannot be searched. -/
def unreadableDirWorld : World :=
  { sampleWorld with PluginById := fun _ _ => .error (.other "permission denied") }

/-- The sample world with feeds that hold no release. -/
def emptyFeedWorld : World :=
  { sampleWorld with Unmarshal := fun _ => ([], none) }

/-- The sample world with a resolver that finds no match. -/
def noMatchWorld : World :=
  { sampleWorld with
    ResolveVersionJar := fun _ _ _ => .error (.errorf "no matching release") }

/-- The sample world with no plugin id given. -/
def noIdWorld : World := { sampleWorld with PluginId := "" }

/-- The sample world with `json` as the package variable `PluginId`. -/
def jsonIdWorld : World := { sampleWorld with PluginId := "json" }

/-! ## Theorems -/

/-- C2: `GetReleaseUrl` fails exactly when `pluginId` is not a key of the registry: for a
key it returns the `Url` of the entry and a nil error; otherwise it returns the empty
string and an error whose message names the requested id and ends with the rendering of
`plugins.ConfigRepo.ShortList()`. -/
theorem GetReleaseUrl_fails_iff_not_registered (w : World) (fr : FetchRunner)
    (pluginId : String) :
    (∀ v, w.ConfigRepo pluginId = some v →
      (GetReleaseUrl w fr pluginId).outcome = .returned (v.Url, none)) ∧
    (w.ConfigRepo pluginId = none →
      (GetReleaseUrl w fr pluginId).outcome =
        .returned ("", some (.errorf ("Don't know how to fetch plugin `" ++ pluginId ++
          "`; known plugins: " ++ w.ShortList)))) ∧
    ((∃ s e, (GetReleaseUrl w fr pluginId).outcome = .returned (s, some e)) ↔
      w.ConfigRepo pluginId = none) := by
  refine ⟨?_, ?_, ?_⟩
  · intro v hv
    simp [GetReleaseUrl, emit, bind, Proc.bind, pure, Proc.pure, hv]
  · intro hv
    simp [GetReleaseUrl, emit, bind, Proc.bind, pure, Proc.pure, hv]
  · cases hv : w.ConfigRepo pluginId <;>
      simp [GetReleaseUrl, emit, bind, Proc.bind, pure, Proc.pure, hv]

/-- C1: when `PluginId` is not a key of the registry, `FetchPlugin` ends in
`utils.AbortLoudly` called by `releasesURL` with the error of `GetReleaseUrl`; the only
call before it is the registry read, so no HTTP request, plugin lookup, removal or
download is made. -/
theorem FetchPlugin_unknown_id_aborts_before_network (w : World) (fr : FetchRunner)
    (id : String) (hunknown : w.ConfigRepo w.PluginId = none) :
    ∃ e, (GetReleaseUrl w fr w.PluginId).outcome = .returned ("", some e) ∧
      FetchPlugin w fr id =
        ⟨.exited 1, [.registryLookup w.PluginId, .abortLoudly e]⟩ ∧
      ∀ ev ∈ (FetchPlugin w fr id).trace,
        ev.isHttpGet = false ∧ ev.isPluginById = false ∧ ev.isRemoveAll = false ∧
          ev.isWget = false := by
  refine ⟨.errorf ("Don't know how to fetch plugin `" ++ w.PluginId ++
    "`; known plugins: " ++ w.ShortList), ?_, ?_, ?_⟩
  · simp [GetReleaseUrl, emit, bind, Proc.bind, pure, Proc.pure, hunknown]
  · simp [FetchPlugin, releasesURL, GetReleaseUrl, AbortLoudly, emit, exitProcess, bind,
      Proc.bind, pure, Proc.pure, hunknown]
  · simp [FetchPlugin, releasesURL, GetReleaseUrl, AbortLoudly, emit, exitProcess, bind,
      Proc.bind, pure, Proc.pure, hunknown, Event.isHttpGet, Event.isPluginById,
      Event.isRemoveAll, Event.isWget]

/-- C2 at the sample registry: `yaml` is a key and yields its URL with a nil error, `toml`
is not and yields the empty string with the error message. -/
theorem GetReleaseUrl_fails_iff_not_registered_witness :
    sampleWorld.ConfigRepo "yaml" = some ⟨"https://feed.example/yaml/releases"⟩ ∧
    (GetReleaseUrl sampleWorld sampleRunner "yaml").outcome =
      .returned ("https://feed.example/yaml/releases", none) ∧
    sampleWorld.ConfigRepo "toml" = none ∧
    (GetReleaseUrl sampleWorld sampleRunner "toml").outcome =
      .returned ("", some (.errorf
        "Don't know how to fetch plugin `toml`; known plugins: json, yaml")) :=
  ⟨by decide,
   (GetReleaseUrl_fails_iff_not_registered sampleWorld sampleRunner "yaml").1 _ (by decide),
   by decide,
   (GetReleaseUrl_fails_iff_not_registered sampleWorld sampleRunner "toml").2.1 (by decide)⟩

/-- C1 at the sample world with the unknown id `toml`. -/
theorem FetchPlugin_unknown_id_aborts_before_network_witness :
    unknownIdWorld.ConfigRepo unknownIdWorld.PluginId = none ∧
    ∃ e, (GetReleaseUrl unknownIdWorld sampleRunner unknownIdWorld.PluginId).outcome =
        .returned ("", some e) ∧
      FetchPlugin unknownIdWorld sampleRunner "toml" =
        ⟨.exited 1, [.registryLookup unknownIdWorld.PluginId, .abortLoudly e]⟩ ∧
      ∀ ev ∈ (FetchPlugin unknownIdWorld sampleRunner "toml").trace,
        ev.isHttpGet = false ∧ ev.isPluginById = false ∧ ev.isRemoveAll = false ∧
          ev.isWget = false :=
  ⟨by decide,
   FetchPlugin_unknown_id_aborts_before_network unknownIdWorld sampleRunner "toml"
     (by decide)⟩

/-- C3: with a non-empty release list, a resolved asset and an installed copy that is a
regular file, `FetchPlugin` makes exactly one `os.RemoveAll` call, on that file, and makes
it before the download starts. -/
theorem FetchPlugin_removes_exactly_existing_file (w : World) (fr : FetchRunner)
    (id : String) (v : ConfigRepoPlugin) (res : Response) (payload : String)
    (releases : List Release) (a : Asset) (existing : String)
    (hreg : w.ConfigRepo w.PluginId = some v) (hdo : w.Do v.Url = .responded res)
    (hread : res.ReadAll = .ok payload) (hjson : w.Unmarshal payload = (releases, none))
    (hne : releases ≠ [])
    (hres : w.ResolveVersionJar releases fr.FilterBy fr.StableOnly = .ok a)
    (hlook : w.PluginById w.PluginId w.PluginDir = .ok existing)
    (hfile : w.IsFile existing = true) (hdir : w.IsDir existing = false) :
    FetchPlugin w fr id =
      ⟨.returned (w.Wget a.Url a.Name w.PluginDir),
       [.registryLookup w.PluginId, .httpGet v.Url,
        .resolveVersionJar releases fr.FilterBy fr.StableOnly,
        .pluginById w.PluginId w.PluginDir, .isDir existing, .isFile existing,
        .echofln ("Removing existing " ++ w.PluginId ++ " plugin " ++ existing),
        .removeAll existing, .wget a.Url a.Name w.PluginDir]⟩ ∧
    (FetchPlugin w fr id).trace.filter Event.isRemoveAll = [.removeAll existing] ∧
    ∃ before after,
      (FetchPlugin w fr id).trace = before ++ .removeAll existing :: after ∧
      (∀ ev ∈ before, ev.isWget = false) ∧
      after = [.wget a.Url a.Name w.PluginDir] := by
  have hrun : FetchPlugin w fr id =
      ⟨.returned (w.Wget a.Url a.Name w.PluginDir),
       [.registryLookup w.PluginId, .httpGet v.Url,
        .resolveVersionJar releases fr.FilterBy fr.StableOnly,
        .pluginById w.PluginId w.PluginDir, .isDir existing, .isFile existing,
        .echofln ("Removing existing " ++ w.PluginId ++ " plugin " ++ existing),
        .removeAll existing, .wget a.Url a.Name w.PluginDir]⟩ := by
    cases releases with
    | nil => exact absurd rfl hne
    | cons r rs =>
      simp [FetchPlugin, releasesURL, GetReleaseUrl, emit, bind, Proc.bind, pure,
        Proc.pure, hreg, hdo, hread, hjson, hres, hlook, hfile, hdir]
  refine ⟨hrun, ?_, ?_⟩
  · rw [hrun]
    simp [List.filter, Event.isRemoveAll]
  · refine ⟨[.registryLookup w.PluginId, .httpGet v.Url,
        .resolveVersionJar releases fr.FilterBy fr.StableOnly,
        .pluginById w.PluginId w.PluginDir, .isDir existing, .isFile existing,
        .echofln ("Removing existing " ++ w.PluginId ++ " plugin " ++ existing)],
      [.wget a.Url a.Name w.PluginDir], ?_, ?_, rfl⟩
    · rw [hrun]
      rfl
    · intro ev hev
      simp only [List.mem_cons, List.mem_singleton, List.not_mem_nil, or_false] at hev
      rcases hev with h | h | h | h | h | h | h <;> subst h <;> rfl

/-- C3 at the sample world: the installed file `plugins/yaml-0.8.0.jar` is the only path
removed. -/
theorem FetchPlugin_removes_exactly_existing_file_witness :
    sampleWorld.IsFile "plugins/yaml-0.8.0.jar" = true ∧
    sampleWorld.IsDir "plugins/yaml-0.8.0.jar" = false ∧
    (FetchPlugin sampleWorld sampleRunner "yaml").trace.filter Event.isRemoveAll =
      [.removeAll "plugins/yaml-0.8.0.jar"] :=
  ⟨by decide, by decide,
   (FetchPlugin_removes_exactly_existing_file sampleWorld sampleRunner "yaml"
      ⟨"https://feed.example/yaml/releases"⟩ ⟨.ok "yaml-feed"⟩ "yaml-feed" sampleReleases
      ⟨"yaml-0.9.0.jar", "https://dl.example/yaml-0.9.0.jar"⟩ "plugins/yaml-0.8.0.jar"
      (by decide) rfl rfl (by decide) (by decide) rfl rfl (by decide)
      (by decide)).2.1⟩

/-- C4: with a non-empty release list, a resolved asset and an installed copy that is a
directory, `FetchPlugin` makes no removal call, emits a warning that names the path, and
goes on to the download. -/
theorem FetchPlugin_keeps_existing_directory (w : World) (fr : FetchRunner)
    (id : String) (v : ConfigRepoPlugin) (res : Response) (payload : String)
    (releases : List Release) (a : Asset) (existing : String)
    (hreg : w.ConfigRepo w.PluginId = some v) (hdo : w.Do v.Url = .responded res)
    (hread : res.ReadAll = .ok payload) (hjson : w.Unmarshal payload = (releases, none))
    (hne : releases ≠ [])
    (hres : w.ResolveVersionJar releases fr.FilterBy fr.StableOnly = .ok a)
    (hlook : w.PluginById w.PluginId w.PluginDir = .ok existing)
    (hdir : w.IsDir existing = true) (hfile : w.IsFile existing = false) :
    FetchPlugin w fr id =
      ⟨.returned (w.Wget a.Url a.Name w.PluginDir),
       [.registryLookup w.PluginId, .httpGet v.Url,
        .resolveVersionJar releases fr.FilterBy fr.StableOnly,
        .pluginById w.PluginId w.PluginDir, .isDir existing,
        .errfln ("[WARNING] `" ++ existing ++
          "` is a directory; will not remove this, but please inspect."),
        .isFile existing, .wget a.Url a.Name w.PluginDir]⟩ ∧
    ∀ ev ∈ (FetchPlugin w fr id).trace, ev.isRemoveAll = false := by
  have hrun : FetchPlugin w fr id =
      ⟨.returned (w.Wget a.Url a.Name w.PluginDir),
       [.registryLookup w.PluginId, .httpGet v.Url,
        .resolveVersionJar releases fr.FilterBy fr.StableOnly,
        .pluginById w.PluginId w.PluginDir, .isDir existing,
        .errfln ("[WARNING] `" ++ existing ++
          "` is a directory; will not remove this, but please inspect."),
        .isFile existing, .wget a.Url a.Name w.PluginDir]⟩ := by
    cases releases with
    | nil => exact absurd rfl hne
    | cons r rs =>
      simp [FetchPlugin, releasesURL, GetReleaseUrl, emit, bind, Proc.bind, pure,
        Proc.pure, hreg, hdo, hread, hjson, hres, hlook, hfile, hdir]
  refine ⟨hrun, ?_⟩
  rw [hrun]
  simp [Event.isRemoveAll]

/-- C4 at the sample world with the directory `plugins/yaml` installed. -/
theorem FetchPlugin_keeps_existing_directory_witness :
    directoryWorld.IsDir "plugins/yaml" = true ∧
    directoryWorld.IsFile "plugins/yaml" = false ∧
    FetchPlugin directoryWorld sampleRunner "yaml" =
      ⟨.returned ("plugins/yaml-0.9.0.jar", none),
       [.registryLookup "yaml", .httpGet "https://feed.example/yaml/releases",
        .resolveVersionJar sampleReleases "" false,
        .pluginById "yaml" "plugins", .isDir "plugins/yaml",
        .errfln "[WARNING] `plugins/yaml` is a directory; will not remove this, but please inspect.",
        .isFile "plugins/yaml",
        .wget "https://dl.example/yaml-0.9.0.jar" "yaml-0.9.0.jar" "plugins"]⟩ :=
  ⟨by decide, by decide,
   (FetchPlugin_keeps_existing_directory directoryWorld sampleRunner "yaml"
      ⟨"https://feed.example/yaml/releases"⟩ ⟨.ok "yaml-feed"⟩ "yaml-feed" sampleReleases
      ⟨"yaml-0.9.0.jar", "https://dl.example/yaml-0.9.0.jar"⟩ "plugins/yaml"
      (by decide) rfl rfl (by decide) (by decide) rfl rfl (by decide)
      (by decide)).1⟩

/-- C5: with a non-empty release list, a resolved asset and a lookup that returns the
error `e`, `FetchPlugin` stops right after the lookup, returning the empty path and `e`,
exactly when `e` is not a `*plugins.PluginNotFoundError`; for a not-found error it goes
on to the download and returns what `utils.Wget` returns. Nothing is removed either way. -/
theorem FetchPlugin_lookup_error_aborts_iff_not_notfound (w : World) (fr : FetchRunner)
    (id : String) (v : ConfigRepoPlugin) (res : Response) (payload : String)
    (releases : List Release) (a : Asset) (e : GoError)
    (hreg : w.ConfigRepo w.PluginId = some v) (hdo : w.Do v.Url = .responded res)
    (hread : res.ReadAll = .ok payload) (hjson : w.Unmarshal payload = (releases, none))
    (hne : releases ≠ [])
    (hres : w.ResolveVersionJar releases fr.FilterBy fr.StableOnly = .ok a)
    (hlook : w.PluginById w.PluginId w.PluginDir = .error e) :
    (e.isPluginNotFound = true →
      FetchPlugin w fr id =
        ⟨.returned (w.Wget a.Url a.Name w.PluginDir),
         [.registryLookup w.PluginId, .httpGet v.Url,
          .resolveVersionJar releases fr.FilterBy fr.StableOnly,
          .pluginById w.PluginId w.PluginDir,
          .inspectError e "searching for plugin with id %q in dir %q"
            [w.PluginId, w.PluginDir],
          .wget a.Url a.Name w.PluginDir]⟩) ∧
    (FetchPlugin w fr id =
        ⟨.returned ("", some e),
         [.registryLookup w.PluginId, .httpGet v.Url,
          .resolveVersionJar releases fr.FilterBy fr.StableOnly,
          .pluginById w.PluginId w.PluginDir,
          .inspectError e "searching for plugin with id %q in dir %q"
            [w.PluginId, w.PluginDir]]⟩ ↔
      e.isPluginNotFound = false) ∧
    ((∀ ev ∈ (FetchPlugin w fr id).trace, ev.isWget = false) ↔
      e.isPluginNotFound = false) ∧
    ∀ ev ∈ (FetchPlugin w fr id).trace, ev.isRemoveAll = false := by
  cases releases with
  | nil => exact absurd rfl hne
  | cons r rs =>
    cases hnf : e.isPluginNotFound <;>
      simp [FetchPlugin, releasesURL, GetReleaseUrl, emit, bind, Proc.bind, pure,
        Proc.pure, hreg, hdo, hread, hjson, hres, hlook, hnf, Event.isWget,
        Event.isRemoveAll]

/-- C5 at the sample world with a plugin directory that cannot be searched: the lookup
error is returned and nothing is downloaded. -/
theorem FetchPlugin_lookup_error_aborts_iff_not_notfound_witness :
    (GoError.other "permission denied").isPluginNotFound = false ∧
    FetchPlugin unreadableDirWorld sampleRunner "yaml" =
      ⟨.returned ("", some (.other "permission denied")),
       [.registryLookup "yaml", .httpGet "https://feed.example/yaml/releases",
        .resolveVersionJar sampleReleases "" false,
        .pluginById "yaml" "plugins",
        .inspectError (.other "permission denied")
          "searching for plugin with id %q in dir %q" ["yaml", "plugins"]]⟩ :=
  ⟨rfl,
   (FetchPlugin_lookup_error_aborts_iff_not_notfound unreadableDirWorld sampleRunner "yaml"
      ⟨"https://feed.example/yaml/releases"⟩ ⟨.ok "yaml-feed"⟩ "yaml-feed" sampleReleases
      ⟨"yaml-0.9.0.jar", "https://dl.example/yaml-0.9.0.jar"⟩ (.other "permission denied")
      (by decide) rfl rfl (by decide) (by decide) rfl rfl).2.1.2 rfl⟩

/-- C6: when the feed request succeeds and decodes to an empty list, `FetchPlugin id`
returns the empty path and the error "There are no available releases for <id>", having
made only the registry read and the request: the resolver is not invoked and nothing is
looked up, removed or downloaded. -/
theorem FetchPlugin_empty_release_list_fails (w : World) (fr : FetchRunner)
    (id : String) (v : ConfigRepoPlugin) (res : Response) (payload : String)
    (hreg : w.ConfigRepo w.PluginId = some v) (hdo : w.Do v.Url = .responded res)
    (hread : res.ReadAll = .ok payload) (hjson : w.Unmarshal payload = ([], none)) :
    FetchPlugin w fr id =
      ⟨.returned ("", some (.errorf ("There are no available releases for " ++ id))),
       [.registryLookup w.PluginId, .httpGet v.Url]⟩ ∧
    (∃ before after,
      (GoError.errorf ("There are no available releases for " ++ id)).message =
        before ++ "no available releases" ++ after) ∧
    ∀ ev ∈ (FetchPlugin w fr id).trace,
      ev.isResolveVersionJar = false ∧ ev.isPluginById = false ∧
        ev.isRemoveAll = false ∧ ev.isWget = false := by
  have hrun : FetchPlugin w fr id =
      ⟨.returned ("", some (.errorf ("There are no available releases for " ++ id))),
       [.registryLookup w.PluginId, .httpGet v.Url]⟩ := by
    simp [FetchPlugin, releasesURL, GetReleaseUrl, emit, bind, Proc.bind, pure,
      Proc.pure, hreg, hdo, hread, hjson]
  refine ⟨hrun, ⟨"There are ", " for " ++ id, ?_⟩, ?_⟩
  · show "There are no available releases for " ++ id =
      "There are " ++ "no available releases" ++ (" for " ++ id)
    rw [← String.append_assoc]
    rfl
  · rw [hrun]
    simp [Event.isResolveVersionJar, Event.isPluginById, Event.isRemoveAll, Event.isWget]

/-- C6 at the sample world with empty feeds. -/
theorem FetchPlugin_empty_release_list_fails_witness :
    emptyFeedWorld.Unmarshal "yaml-feed" = ([], none) ∧
    FetchPlugin emptyFeedWorld sampleRunner "yaml" =
      ⟨.returned ("", some (.errorf "There are no available releases for yaml")),
       [.registryLookup "yaml", .httpGet "https://feed.example/yaml/releases"]⟩ :=
  ⟨rfl,
   (FetchPlugin_empty_release_list_fails emptyFeedWorld sampleRunner "yaml"
      ⟨"https://feed.example/yaml/releases"⟩ ⟨.ok "yaml-feed"⟩ "yaml-feed"
      (by decide) rfl rfl rfl).1⟩

/-- C7: with a non-empty release list, whenever `github.ResolveVersionJar` returns an
error, `FetchPlugin` returns the empty path and that same error, and makes no plugin
lookup, no removal and no download. -/
theorem FetchPlugin_resolver_error_propagates (w : World) (fr : FetchRunner)
    (id : String) (v : ConfigRepoPlugin) (res : Response) (payload : String)
    (releases : List Release) (e : GoError)
    (hreg : w.ConfigRepo w.PluginId = some v) (hdo : w.Do v.Url = .responded res)
    (hread : res.ReadAll = .ok payload) (hjson : w.Unmarshal payload = (releases, none))
    (hne : releases ≠ [])
    (hres : w.ResolveVersionJar releases fr.FilterBy fr.StableOnly = .error e) :
    FetchPlugin w fr id =
      ⟨.returned ("", some e),
       [.registryLookup w.PluginId, .httpGet v.Url,
        .resolveVersionJar releases fr.FilterBy fr.StableOnly]⟩ ∧
    ∀ ev ∈ (FetchPlugin w fr id).trace,
      ev.isPluginById = false ∧ ev.isRemoveAll = false ∧ ev.isWget = false ∧
        ev.isFilesystem = false := by
  have hrun : FetchPlugin w fr id =
      ⟨.returned ("", some e),
       [.registryLookup w.PluginId, .httpGet v.Url,
        .resolveVersionJar releases fr.FilterBy fr.StableOnly]⟩ := by
    cases releases with
    | nil => exact absurd rfl hne
    | cons r rs =>
      simp [FetchPlugin, releasesURL, GetReleaseUrl, emit, bind, Proc.bind, pure,
        Proc.pure, hreg, hdo, hread, hjson, hres]
  refine ⟨hrun, ?_⟩
  rw [hrun]
  simp [Event.isPluginById, Event.isRemoveAll, Event.isWget, Event.isFilesystem]

/-- C7 at the sample world with a resolver that finds no match. -/
theorem FetchPlugin_resolver_error_propagates_witness :
    noMatchWorld.ResolveVersionJar sampleReleases "" false =
      .error (.errorf "no matching release") ∧
    FetchPlugin noMatchWorld sampleRunner "yaml" =
      ⟨.returned ("", some (.errorf "no matching release")),
       [.registryLookup "yaml", .httpGet "https://feed.example/yaml/releases",
        .resolveVersionJar sampleReleases "" false]⟩ :=
  ⟨rfl,
   (FetchPlugin_resolver_error_propagates noMatchWorld sampleRunner "yaml"
      ⟨"https://feed.example/yaml/releases"⟩ ⟨.ok "yaml-feed"⟩ "yaml-feed" sampleReleases
      (.errorf "no matching release") (by decide) rfl rfl (by decide) (by decide) rfl).1⟩

/-- C8: when the download step is reached (non-empty release list, the resolver returns
the asset `a`, the lookup succeeds or reports not-found), `FetchPlugin` makes exactly one
download, of `a.Url` under the name `a.Name` into `PluginDir`, as its last call, and
returns exactly the pair that `utils.Wget` returns, whatever `os.RemoveAll` answers. -/
theorem FetchPlugin_downloads_resolved_asset_once (w : World) (fr : FetchRunner)
    (id : String) (v : ConfigRepoPlugin) (res : Response) (payload : String)
    (releases : List Release) (a : Asset)
    (hreg : w.ConfigRepo w.PluginId = some v) (hdo : w.Do v.Url = .responded res)
    (hread : res.ReadAll = .ok payload) (hjson : w.Unmarshal payload = (releases, none))
    (hne : releases ≠ [])
    (hres : w.ResolveVersionJar releases fr.FilterBy fr.StableOnly = .ok a)
    (hlook : (∃ existing, w.PluginById w.PluginId w.PluginDir = .ok existing) ∨
      ∃ e, w.PluginById w.PluginId w.PluginDir = .error e ∧ e.isPluginNotFound = true) :
    (FetchPlugin w fr id).outcome = .returned (w.Wget a.Url a.Name w.PluginDir) ∧
    (FetchPlugin w fr id).trace.filter Event.isWget = [.wget a.Url a.Name w.PluginDir] ∧
    (FetchPlugin w fr id).trace.getLast? = some (.wget a.Url a.Name w.PluginDir) := by
  cases releases with
  | nil => exact absurd rfl hne
  | cons r rs =>
    rcases hlook with ⟨existing, hok⟩ | ⟨e, herr, hnf⟩
    · cases hd : w.IsDir existing <;> cases hf : w.IsFile existing <;>
        simp [FetchPlugin, releasesURL, GetReleaseUrl, emit, bind, Proc.bind, pure,
          Proc.pure, hreg, hdo, hread, hjson, hres, hok, hd, hf, Event.isWget,
          List.filter, List.getLast?]
    · simp [FetchPlugin, releasesURL, GetReleaseUrl, emit, bind, Proc.bind, pure,
        Proc.pure, hreg, hdo, hread, hjson, hres, herr, hnf, Event.isWget,
        List.filter, List.getLast?]

/-- C8 at the sample world with no installed copy: the jar of the resolved asset is the
one download, and its result is the result. -/
theorem FetchPlugin_downloads_resolved_asset_once_witness :
    (FetchPlugin notInstalledWorld sampleRunner "yaml").outcome =
      .returned ("plugins/yaml-0.9.0.jar", none) ∧
    (FetchPlugin notInstalledWorld sampleRunner "yaml").trace.filter Event.isWget =
      [.wget "https://dl.example/yaml-0.9.0.jar" "yaml-0.9.0.jar" "plugins"] ∧
    (FetchPlugin notInstalledWorld sampleRunner "yaml").trace.getLast? =
      some (.wget "https://dl.example/yaml-0.9.0.jar" "yaml-0.9.0.jar" "plugins") :=
  FetchPlugin_downloads_resolved_asset_once notInstalledWorld sampleRunner "yaml"
    ⟨"https://feed.example/yaml/releases"⟩ ⟨.ok "yaml-feed"⟩ "yaml-feed" sampleReleases
    ⟨"yaml-0.9.0.jar", "https://dl.example/yaml-0.9.0.jar"⟩
    (by decide) rfl rfl (by decide) (by decide) rfl
    (Or.inr ⟨.pluginNotFound "yaml", rfl, rfl⟩)

/-- No path through `FetchPlugin` calls `utils.DieLoudly`. -/
theorem FetchPlugin_never_calls_DieLoudly (w : World) (fr : FetchRunner) (id : String) :
    ∀ ev ∈ (FetchPlugin w fr id).trace, ev.isDieLoudly = false := by
  unfold FetchPlugin releasesURL GetReleaseUrl
  cases hreg : w.ConfigRepo w.PluginId with
  | none =>
    simp [AbortLoudly, emit, exitProcess, bind, Proc.bind, pure, Proc.pure,
      Event.isDieLoudly]
  | some v =>
    cases hdo : w.Do v.Url with
    | failed e =>
      simp [emit, bind, Proc.bind, pure, Proc.pure, Event.isDieLoudly, hdo]
    | responded res =>
      cases hread : res.ReadAll with
      | error e =>
        simp [emit, bind, Proc.bind, pure, Proc.pure, Event.isDieLoudly, hdo, hread]
      | ok payload =>
        rcases hjson : w.Unmarshal payload with ⟨releases, err⟩
        cases err with
        | some e =>
          simp [emit, bind, Proc.bind, pure, Proc.pure, Event.isDieLoudly, hdo, hread,
            hjson]
        | none =>
          cases releases with
          | nil =>
            simp [emit, bind, Proc.bind, pure, Proc.pure, Event.isDieLoudly, hdo, hread,
              hjson]
          | cons r rs =>
            cases hres : w.ResolveVersionJar (r :: rs) fr.FilterBy fr.StableOnly with
            | error e =>
              simp [emit, bind, Proc.bind, pure, Proc.pure, Event.isDieLoudly, hdo,
                hread, hjson, hres]
            | ok a =>
              cases hlook : w.PluginById w.PluginId w.PluginDir with
              | error e =>
                cases hnf : e.isPluginNotFound <;>
                  simp [emit, bind, Proc.bind, pure, Proc.pure, Event.isDieLoudly, hdo,
                    hread, hjson, hres, hlook, hnf]
              | ok existing =>
                cases hd : w.IsDir existing <;> cases hf : w.IsFile existing <;>
                  simp [emit, bind, Proc.bind, pure, Proc.pure, Event.isDieLoudly, hdo,
                    hread, hjson, hres, hlook, hd, hf]

/-- C9: `Run` ends in the missing-plugin-id failure exactly when `PluginId` is empty. With
an empty id its only call is `utils.DieLoudly(1, "You must provide a --plugin-id")` and the
process exits with code 1, before any registry read, request or file system access. With
a non-empty id `DieLoudly` is never called, `FetchPlugin(PluginId)` is run, and an error it
returns is handed to `utils.AbortLoudly`. -/
theorem Run_dies_iff_plugin_id_empty (w : World) (fr : FetchRunner) (args : List String) :
    (w.PluginId = "" →
      Run w fr args = ⟨.exited 1, [.dieLoudly 1 "You must provide a --plugin-id"]⟩) ∧
    (w.PluginId ≠ "" →
      (∀ ev ∈ (Run w fr args).trace, ev.isDieLoudly = false) ∧
      (∀ s, (FetchPlugin w fr w.PluginId).outcome = .returned (s, none) →
        Run w fr args = ⟨.returned (), (FetchPlugin w fr w.PluginId).trace⟩) ∧
      (∀ s e, (FetchPlugin w fr w.PluginId).outcome = .returned (s, some e) →
        Run w fr args =
          ⟨.exited 1, (FetchPlugin w fr w.PluginId).trace ++ [.abortLoudly e]⟩) ∧
      (∀ c, (FetchPlugin w fr w.PluginId).outcome = .exited c →
        Run w fr args = ⟨.exited c, (FetchPlugin w fr w.PluginId).trace⟩)) ∧
    ((∃ ev ∈ (Run w fr args).trace, ev.isDieLoudly = true) ↔ w.PluginId = "") := by
  by_cases hid : w.PluginId = ""
  · have hrun : Run w fr args =
        ⟨.exited 1, [.dieLoudly 1 "You must provide a --plugin-id"]⟩ := by
      have hb : ("" == w.PluginId) = true := by
        rw [hid]
        rfl
      unfold Run
      rw [hb]
      simp only [if_true, DieLoudly, emit, exitProcess]
      rfl
    refine ⟨fun _ => hrun, fun h => absurd hid h, ?_⟩
    rw [hrun]
    exact ⟨fun _ => hid, fun _ => ⟨_, List.mem_singleton.mpr rfl, rfl⟩⟩
  · have hne : ("" == w.PluginId) = false := by
      have hsymm : "" ≠ w.PluginId := fun h => hid h.symm
      simpa using hsymm
    have hno := FetchPlugin_never_calls_DieLoudly w fr w.PluginId
    have hrun : Run w fr args =
        Proc.bind (FetchPlugin w fr w.PluginId) (fun r =>
          match r.2 with
          | some e => AbortLoudly e
          | none => Proc.pure ()) := by
      simp only [Run, hne, bind, pure]
      cases hp : FetchPlugin w fr w.PluginId with
      | mk o t =>
        cases o with
        | exited c => simp [Proc.bind, Proc.pure]
        | returned r =>
          rcases r with ⟨s, err⟩
          cases err <;> simp [Proc.bind, Proc.pure]
    refine ⟨fun h => absurd h hid, fun _ => ?_, ?_⟩
    · rw [hrun]
      revert hno
      cases hp : FetchPlugin w fr w.PluginId with
      | mk o t =>
        intro hno
        cases o with
        | exited c => simpa [Proc.bind] using hno
        | returned r =>
          rcases r with ⟨s, err⟩
          cases err with
          | none => simpa [Proc.bind, Proc.pure] using hno
          | some e =>
            simp only [Proc.bind, AbortLoudly, emit, exitProcess, bind]
            refine ⟨?_, ?_, ?_, ?_⟩
            · intro ev hev
              simp only [List.nil_append, List.append_nil, List.mem_append,
                List.mem_singleton] at hev
              rcases hev with h | h
              · exact hno ev h
              · subst h
                rfl
            · intro s2 h
              simp at h
            · intro s2 e2 h
              simp only [Outcome.returned.injEq, Prod.mk.injEq, Option.some.injEq] at h
              simp [h.2]
            · intro c h
              simp at h
    · rw [hrun]
      revert hno
      cases hp : FetchPlugin w fr w.PluginId with
      | mk o t =>
        intro hno
        have hnot : ¬ ∃ ev ∈ t, ev.isDieLoudly = true := by
          rintro ⟨ev, hev, h⟩
          have := hno ev hev
          simp [h] at this
        cases o with
        | exited c => simpa [Proc.bind, hid] using hnot
        | returned r =>
          rcases r with ⟨s, err⟩
          cases err with
          | none => simpa [Proc.bind, Proc.pure, hid] using hnot
          | some e =>
            simp only [Proc.bind, AbortLoudly, emit, exitProcess, bind, hid, iff_false]
            rintro ⟨ev, hev, h⟩
            simp only [List.nil_append, List.append_nil, List.mem_append,
              List.mem_singleton] at hev
            rcases hev with h2 | h2
            · exact hnot ⟨ev, h2, h⟩
            · subst h2
              simp [Event.isDieLoudly] at h

/-- C9 at the sample world with no plugin id: the process exits with code 1 after the one
call to `utils.DieLoudly`. -/
theorem Run_dies_iff_plugin_id_empty_witness :
    noIdWorld.PluginId = "" ∧
    Run noIdWorld sampleRunner [] =
      ⟨.exited 1, [.dieLoudly 1 "You must provide a --plugin-id"]⟩ :=
  ⟨rfl, (Run_dies_iff_plugin_id_empty noIdWorld sampleRunner []).1 rfl⟩

/-- C10 at a failing input: with the package variable `PluginId` holding `json`, the call
`FetchPlugin("yaml")` requests the feed that the registry configures for `json`, looks up
the installed `json` plugin and removes it; the argument `yaml` is used nowhere. -/
theorem FetchPlugin_ignores_argument_id :
    jsonIdWorld.ConfigRepo "yaml" = some ⟨"https://feed.example/yaml/releases"⟩ ∧
    FetchPlugin jsonIdWorld sampleRunner "yaml" =
      ⟨.returned ("plugins/json-0.3.1.jar", none),
       [.registryLookup "json", .httpGet "https://feed.example/json/releases",
        .resolveVersionJar jsonReleases "" false,
        .pluginById "json" "plugins", .isDir "plugins/json-0.3.0.jar",
        .isFile "plugins/json-0.3.0.jar",
        .echofln "Removing existing json plugin plugins/json-0.3.0.jar",
        .removeAll "plugins/json-0.3.0.jar",
        .wget "https://dl.example/json-0.3.1.jar" "json-0.3.1.jar" "plugins"]⟩ := by
  constructor
  · decide
  · decide

end GocdCli
